import Mathlib

/-!
# Verification development for op-xy-drum-builder

Shallow embedding of the core algorithms of the drum-sample browser /
OP-XY preset builder:

* the drum one-shot classifier `isLikelyDrumOneShot` and the directory
  scanner `scanDirectory` (storage service);
* the IndexedDB-backed sample store (`upsertSample`, `removeDirectory`,
  `updateSample`);
* the export pipeline of `handleDownload` in `piano-keys.tsx`
  (note-to-MIDI mapping, trim / gain / fade / reverse processing,
  `audioBufferToWav` re-encoding, patch.json region construction);
* the waveform / RMS analysis of `analyzeSample` in `sample-list.tsx`.

Sample amplitudes are modelled as exact rationals (an idealisation of the
JavaScript doubles); the properties verified here are order- and
arithmetic-structural, so they are insensitive to rounding.  Where the
JavaScript code produces a `NaN` whose comparisons are all false (empty
tail average, zero-width RMS windows) the embedding makes the resulting
branch decision explicit and is commented at that point.
-/

attribute [local semireducible] Rat.add Rat.mul Rat.inv Rat.sub

set_option maxRecDepth 100000

namespace DrumBuilder

/-- Decoded audio: sample rate in Hz plus per-channel sample lists
(`AudioBuffer.getChannelData(i)` is `channels[i]`). -/
structure AudioData where
  sampleRate : ℕ
  channels : List (List ℚ)
deriving Repr, DecidableEq

/-- `getChannelData(0)`. -/
def AudioData.channel0 (a : AudioData) : List ℚ := a.channels.headD []

/-- `AudioBuffer.length` (frame count). -/
def AudioData.frames (a : AudioData) : ℕ := (a.channels.headD []).length

/-- `AudioBuffer.duration = length / sampleRate` (seconds). -/
def AudioData.duration (a : AudioData) : ℚ := (a.frames : ℚ) / (a.sampleRate : ℚ)

/-- An audio file as the scanner sees it: its byte size and the result of
`decodeAudioData` (`none` = decoding throws, caught by the classifier). -/
structure AudioFile where
  size : ℕ
  audio : Option AudioData
deriving Repr, DecidableEq

/-- The peak scan of `isLikelyDrumOneShot`: running
`(maxAmplitude, maxIndex)`, updated on strict increase of `|x|`. -/
def findPeak (ch : List ℚ) : ℚ × ℕ :=
  ch.enum.foldl (fun p ix => if p.1 < |ix.2| then (|ix.2|, ix.1) else p) (0, 0)

/-- The inner RMS accumulation loop: sum of squares over indices
`[s, s+w) ∩ [0, ch.length)` (the loop guard `j < endIndex && j < length`). -/
def sumSqWindow (ch : List ℚ) (s w : ℕ) : ℚ :=
  (((ch.drop s).take w).map (fun x => x * x)).sum

/-- One iteration of the decay loop: compute the window's mean square and
bump the counter when it is strictly below the previous one. -/
def decayStep (ch : List ℚ) (maxIndex w : ℕ) (st : ℚ × ℕ) (i : ℕ) : ℚ × ℕ :=
  let ms : ℚ := sumSqWindow ch (maxIndex + i * w) w / (w : ℚ)
  (ms, if ms < st.1 then st.2 + 1 else st.2)

/-- The decay loop of `isLikelyDrumOneShot`: ten 10 ms windows after the
peak; a window counts when its RMS is strictly below the previous one.
`Real.sqrt` is strictly monotone on nonnegatives, so the code's comparison
of `sqrt (sum/w)` values is mirrored exactly by comparing the mean squares;
the initial `previousRMS = 0` comparison can never fire in either reading
(and when `w = 0` the JavaScript `NaN` chain and the rational `0/0 = 0`
chain both make every comparison false). -/
def decayCount (ch : List ℚ) (maxIndex w : ℕ) : ℕ :=
  ((List.range 10).foldl (decayStep ch maxIndex w) ((0 : ℚ), (0 : ℕ))).2

/-- Everything after the ten decay windows. -/
def tailOf (ch : List ℚ) (maxIndex w : ℕ) : List ℚ :=
  ch.drop (maxIndex + 10 * w)

/-- `Math.floor(0.05 * sampleRate)`: the 50 ms attack bound in samples. -/
def attackSamples (sampleRate : ℕ) : ℕ := (⌊(5 : ℚ) / 100 * (sampleRate : ℚ)⌋).toNat

/-- `Math.floor(0.01 * sampleRate)`: the 10 ms RMS window width. -/
def windowSize (sampleRate : ℕ) : ℕ := (⌊(1 : ℚ) / 100 * (sampleRate : ℚ)⌋).toNat

/-- The silent-tail check.  In the source, an empty tail gives
`tailEnergy / tailCount = 0/0 = NaN` and `NaN < 0.1 * peak` is false, so
the empty-tail case is embedded as an explicit `false`. -/
def hasSilentTail (ch : List ℚ) (maxIndex w : ℕ) (maxAmplitude : ℚ) : Bool :=
  let tail := tailOf ch maxIndex w
  decide (tail.length ≠ 0) &&
    decide ((tail.map (fun x => |x|)).sum / (tail.length : ℚ) < maxAmplitude * (1 / 10))

/-- `StorageService.isLikelyDrumOneShot`, straight-line translation of the
sequence of early returns. -/
def isLikelyDrumOneShot (f : AudioFile) : Bool :=
  if 2 * 1024 * 1024 < f.size then false
  else
    match f.audio with
    | none => false
    | some a =>
      if 2 < a.duration then false
      else
        let ch := a.channel0
        let p := findPeak ch
        if attackSamples a.sampleRate < p.2 then false
        else
          let w := windowSize a.sampleRate
          decide (7 ≤ decayCount ch p.2 w) && hasSilentTail ch p.2 w p.1

/-- A concrete file the classifier accepts: 100 Hz sample rate, a peak of
1 at index 0, ten strictly decaying 10 ms windows, silent two-sample tail. -/
def demoOneShotChannel : List ℚ :=
  [1, 9/10, 8/10, 7/10, 6/10, 5/10, 4/10, 3/10, 2/10, 1/10, 0, 0]

def demoOneShotFile : AudioFile := ⟨1000, some ⟨100, [demoOneShotChannel]⟩⟩

/-- A concrete decodable file whose audio ends before the decay-analysis
window does: one sample at 100 Hz. -/
def demoShortFile : AudioFile := ⟨1000, some ⟨100, [[1]]⟩⟩

lemma sumSqWindow_nonneg (ch : List ℚ) (s w : ℕ) : 0 ≤ sumSqWindow ch s w := by
  apply List.sum_nonneg
  intro x hx
  rcases List.mem_map.mp hx with ⟨y, _, rfl⟩
  exact mul_self_nonneg y

lemma decayStep_snd_le (ch : List ℚ) (maxIndex w : ℕ) (st : ℚ × ℕ) (i : ℕ) :
    (decayStep ch maxIndex w st i).2 ≤ st.2 + 1 := by
  unfold decayStep
  dsimp only
  split <;> omega

lemma foldl_decayStep_snd_le (ch : List ℚ) (maxIndex w : ℕ) :
    ∀ (l : List ℕ) (st : ℚ × ℕ),
      (l.foldl (decayStep ch maxIndex w) st).2 ≤ st.2 + l.length := by
  intro l
  induction l with
  | nil => intro st; simp
  | cons i rest ih =>
    intro st
    have h1 := decayStep_snd_le ch maxIndex w st i
    have h2 := ih (decayStep ch maxIndex w st i)
    simp only [List.foldl_cons, List.length_cons]
    omega

/-- The first decay-loop comparison (`previousRMS = 0`) can never count,
so at most the 9 later window-pair comparisons contribute. -/
lemma decayCount_le_nine (ch : List ℚ) (maxIndex w : ℕ) :
    decayCount ch maxIndex w ≤ 9 := by
  unfold decayCount
  have hr : List.range 10 = 0 :: [1, 2, 3, 4, 5, 6, 7, 8, 9] := rfl
  rw [hr, List.foldl_cons]
  have hstep : decayStep ch maxIndex w ((0 : ℚ), (0 : ℕ)) 0 =
      (sumSqWindow ch (maxIndex + 0 * w) w / (w : ℚ), 0) := by
    unfold decayStep
    dsimp only
    rw [if_neg]
    exact not_lt.mpr (div_nonneg (sumSqWindow_nonneg ch _ w) (Nat.cast_nonneg w))
  rw [hstep]
  have := foldl_decayStep_snd_le ch maxIndex w [1, 2, 3, 4, 5, 6, 7, 8, 9]
    (sumSqWindow ch (maxIndex + 0 * w) w / (w : ℚ), 0)
  simpa using this

/-- C1: the classifier accepts a file only when every gate passes: the
2 MB size ceiling (checked before decoding), successful decode, duration
at most 2 s, peak index within the first `floor(0.05 * sampleRate)`
samples, at least 7 of the 9 possible consecutive RMS-window decreases
(the counter can never exceed 9), and a nonempty tail whose average
absolute amplitude is below 10 % of the peak; acceptance requires the
decay-consistency check and the silent-tail check simultaneously. -/
theorem oneShot_accept_only_if (f : AudioFile)
    (h : isLikelyDrumOneShot f = true) :
    f.size ≤ 2 * 1024 * 1024 ∧
    ∃ a : AudioData, f.audio = some a ∧
      a.duration ≤ 2 ∧
      (findPeak a.channel0).2 ≤ attackSamples a.sampleRate ∧
      decayCount a.channel0 (findPeak a.channel0).2 (windowSize a.sampleRate) ≤ 9 ∧
      7 ≤ decayCount a.channel0 (findPeak a.channel0).2 (windowSize a.sampleRate) ∧
      (tailOf a.channel0 (findPeak a.channel0).2 (windowSize a.sampleRate)).length ≠ 0 ∧
      ((tailOf a.channel0 (findPeak a.channel0).2 (windowSize a.sampleRate)).map
          (fun x => |x|)).sum /
          ((tailOf a.channel0 (findPeak a.channel0).2 (windowSize a.sampleRate)).length : ℚ) <
        (findPeak a.channel0).1 * (1 / 10) := by
  unfold isLikelyDrumOneShot at h
  split at h
  · exact absurd h (by simp)
  next hsize =>
    rcases hf : f.audio with _ | a
    · rw [hf] at h; exact absurd h (by simp)
    · rw [hf] at h
      dsimp only at h
      split at h
      · exact absurd h (by simp)
      next hdur =>
        split at h
        · exact absurd h (by simp)
        next hattack =>
          rw [Bool.and_eq_true, decide_eq_true_iff] at h
          obtain ⟨hdecay, htail⟩ := h
          unfold hasSilentTail at htail
          rw [Bool.and_eq_true, decide_eq_true_iff, decide_eq_true_iff] at htail
          exact ⟨not_lt.mp hsize, a, rfl, not_lt.mp hdur, not_lt.mp hattack,
            decayCount_le_nine _ _ _, hdecay, htail.1, htail.2⟩

/-- C1 witness: `demoOneShotFile` is accepted and satisfies every
necessary condition. -/
theorem oneShot_accept_only_if_witness :
    demoOneShotFile.size ≤ 2 * 1024 * 1024 ∧
    ∃ a : AudioData, demoOneShotFile.audio = some a ∧
      a.duration ≤ 2 ∧
      (findPeak a.channel0).2 ≤ attackSamples a.sampleRate ∧
      decayCount a.channel0 (findPeak a.channel0).2 (windowSize a.sampleRate) ≤ 9 ∧
      7 ≤ decayCount a.channel0 (findPeak a.channel0).2 (windowSize a.sampleRate) ∧
      (tailOf a.channel0 (findPeak a.channel0).2 (windowSize a.sampleRate)).length ≠ 0 ∧
      ((tailOf a.channel0 (findPeak a.channel0).2 (windowSize a.sampleRate)).map
          (fun x => |x|)).sum /
          ((tailOf a.channel0 (findPeak a.channel0).2 (windowSize a.sampleRate)).length : ℚ) <
        (findPeak a.channel0).1 * (1 / 10) :=
  oneShot_accept_only_if demoOneShotFile (by decide)

/-- C10: a decodable file whose signal ends at or before
`peak index + 10 * windowSize` has an empty tail, the silent-tail
comparison (a `NaN` comparison in the source) is false, and the
classifier rejects the file no matter how good its decay pattern is. -/
theorem oneShot_rejects_when_tail_empty (f : AudioFile) (a : AudioData)
    (ha : f.audio = some a)
    (h : a.channel0.length ≤ (findPeak a.channel0).2 + 10 * windowSize a.sampleRate) :
    isLikelyDrumOneShot f = false := by
  unfold isLikelyDrumOneShot
  split
  · rfl
  · rw [ha]
    dsimp only
    split
    · rfl
    · split
      · rfl
      · have htail : (tailOf a.channel0 (findPeak a.channel0).2
            (windowSize a.sampleRate)).length = 0 := by
          unfold tailOf
          rw [List.length_drop]
          omega
        simp [hasSilentTail, htail]

/-- C10 witness: the one-sample file `demoShortFile` is rejected. -/
theorem oneShot_rejects_when_tail_empty_witness :
    isLikelyDrumOneShot demoShortFile = false :=
  oneShot_rejects_when_tail_empty demoShortFile ⟨100, [[1]]⟩ (by decide) (by decide)

/-! ## The directory scanner (`scanDirectory`)

The file-system tree is embedded as an inductive.  A file node carries the
outcome of `entry.getFile()` followed by `isLikelyDrumOneShot(file)`
(`none` = one of the two awaits threw, which the source catches and
logs; `some b` = the classifier's verdict).  A directory node carries
`none` when iterating `handle.values()` throws (permission failure) and
`some children` otherwise. -/

structure ScanEntry where
  name : String
  path : String
deriving Repr, DecidableEq

/-- A directory's entry sequence, as `handle.values()` yields it.
`fileCons` carries the outcome of `entry.getFile()` followed by
`isLikelyDrumOneShot(file)` (`none` = one of the two awaits threw, which
the source catches and logs).  `dirCons` carries a subdirectory; `denied`
is true when iterating that subdirectory's `values()` throws (permission
failure). -/
inductive FsF where
  | nil
  | fileCons (name : String) (analysis : Option Bool) (rest : FsF)
  | dirCons (name : String) (denied : Bool) (children : FsF) (rest : FsF)
deriving Repr, DecidableEq

def FsF.append : FsF → FsF → FsF
  | .nil, ys => ys
  | .fileCons n a r, ys => .fileCons n a (r.append ys)
  | .dirCons n d ch r, ys => .dirCons n d ch (r.append ys)

instance : Append FsF := ⟨FsF.append⟩

/-- ASCII lowering (`String.prototype.toLowerCase` restricted to the
characters the extension regex can match case-insensitively). -/
def charLower (c : Char) : Char :=
  match c with
  | 'A' => 'a' | 'B' => 'b' | 'C' => 'c' | 'D' => 'd' | 'E' => 'e'
  | 'F' => 'f' | 'G' => 'g' | 'H' => 'h' | 'I' => 'i' | 'J' => 'j'
  | 'K' => 'k' | 'L' => 'l' | 'M' => 'm' | 'N' => 'n' | 'O' => 'o'
  | 'P' => 'p' | 'Q' => 'q' | 'R' => 'r' | 'S' => 's' | 'T' => 't'
  | 'U' => 'u' | 'V' => 'v' | 'W' => 'w' | 'X' => 'x' | 'Y' => 'y'
  | 'Z' => 'z' | c => c

/-- Case-insensitive suffix test on the character list of a name. -/
def endsWithCI (name : String) (sfx : List Char) : Bool :=
  let l := name.data.map charLower
  decide (l.drop (l.length - sfx.length) = sfx)

/-- The audio-extension filter `/\.(wav|mp3|aiff?|m4a)$/i`. -/
def isAudioName (name : String) : Bool :=
  endsWithCI name ".wav".data || endsWithCI name ".mp3".data ||
    endsWithCI name ".aif".data || endsWithCI name ".aiff".data ||
    endsWithCI name ".m4a".data

/-- `parentPath ? parentPath + "/" + name : name`. -/
def childPath (parentPath name : String) : String :=
  if parentPath = "" then name else parentPath ++ "/" ++ name

/-- The body of `scanDirectory`'s `for await` loop over `handle.values()`.
A file whose read/analysis throws is skipped (the `try/catch` around
`getFile` and `isLikelyDrumOneShot`); the recursive call into a
subdirectory is *not* inside any `try/catch`, so a permission failure
there propagates (modelled by `Except.error`). -/
def scanEntries : FsF → String → ℕ → Except Unit (List ScanEntry × ℕ)
  | .nil, _, count => .ok ([], count)
  | .fileCons nm analysis rest, currentPath, count =>
    if isAudioName nm then
      match analysis with
      | none => scanEntries rest currentPath count
      | some isOne =>
        if isOne then
          match scanEntries rest currentPath (count + 1) with
          | .error e => .error e
          | .ok (es, total) => .ok (⟨nm, currentPath ++ "/" ++ nm⟩ :: es, total)
        else scanEntries rest currentPath count
    else scanEntries rest currentPath count
  | .dirCons nm denied children rest, currentPath, count =>
    match (if denied then Except.error () else
        scanEntries children (childPath currentPath nm) count :
        Except Unit (List ScanEntry × ℕ)) with
    | .error e => .error e
    | .ok (subEntries, total) =>
      match scanEntries rest currentPath total with
      | .error e => .error e
      | .ok (es, t2) => .ok (subEntries ++ es, t2)

/-- `StorageService.scanDirectory(handle, parentPath, runningCount)`: the
handle is a directory (its name, whether iterating it throws, and its
entries). -/
def scanDirectory (name : String) (denied : Bool) (children : FsF)
    (parentPath : String) (running : ℕ) : Except Unit (List ScanEntry × ℕ) :=
  if denied then .error ()
  else scanEntries children (childPath parentPath name) running

lemma scanEntries_skip_failing_file (nm : String) (ys : FsF) :
    ∀ (xs : FsF) (path : String) (c : ℕ),
      scanEntries (xs ++ FsF.fileCons nm none ys) path c =
        scanEntries (xs ++ ys) path c := by
  intro xs
  induction xs with
  | nil =>
    intro path c
    show scanEntries (FsF.fileCons nm none ys) path c = scanEntries ys path c
    by_cases haud : isAudioName nm <;> simp [scanEntries, haud]
  | fileCons nm2 an2 rest ih =>
    intro path c
    show scanEntries (FsF.fileCons nm2 an2 (rest ++ FsF.fileCons nm none ys)) path c =
      scanEntries (FsF.fileCons nm2 an2 (rest ++ ys)) path c
    by_cases haud : isAudioName nm2
    · cases an2 with
      | none => simp [scanEntries, haud, ih]
      | some b => cases b <;> simp [scanEntries, haud, ih]
    · simp [scanEntries, haud, ih]
  | dirCons nm2 d2 children rest ihch ih =>
    intro path c
    show scanEntries (FsF.dirCons nm2 d2 children (rest ++ FsF.fileCons nm none ys)) path c =
      scanEntries (FsF.dirCons nm2 d2 children (rest ++ ys)) path c
    cases d2 <;> simp [scanEntries, ih]

lemma scanEntries_error_of_denied_dir (nm : String) (d : FsF) (ys : FsF) :
    ∀ (xs : FsF) (path : String) (c : ℕ),
      scanEntries (xs ++ FsF.dirCons nm true d ys) path c = .error () := by
  intro xs
  induction xs with
  | nil =>
    intro path c
    show scanEntries (FsF.dirCons nm true d ys) path c = .error ()
    simp [scanEntries]
  | fileCons nm2 an2 rest ih =>
    intro path c
    show scanEntries (FsF.fileCons nm2 an2 (rest ++ FsF.dirCons nm true d ys)) path c = .error ()
    by_cases haud : isAudioName nm2
    · cases an2 with
      | none => simp [scanEntries, haud, ih]
      | some b => cases b <;> simp [scanEntries, haud, ih]
    · simp [scanEntries, haud, ih]
  | dirCons nm2 d2 children rest ihch ih =>
    intro path c
    show scanEntries (FsF.dirCons nm2 d2 children (rest ++ FsF.dirCons nm true d ys)) path c =
      .error ()
    cases d2 with
    | true => simp [scanEntries]
    | false =>
      simp only [scanEntries, Bool.false_eq_true, if_false, ih]
      cases scanEntries children (childPath path nm2) c <;> simp [ih]

/-- C8 (amended): during a scan, a file entry whose read or analysis
throws is skipped and the rest of the scan proceeds as if the entry were
absent; but a subdirectory whose handle iteration throws (permission
failure) makes the *whole* scan fail — the recursive call is not inside
any `try`/`catch`, so the branch is not "treated as empty". -/
theorem scan_failure_semantics :
    (∀ (xs ys : FsF) (nm path : String) (c : ℕ),
      scanEntries (xs ++ FsF.fileCons nm none ys) path c =
        scanEntries (xs ++ ys) path c) ∧
    (∀ (xs ys d : FsF) (nm path : String) (c : ℕ),
      scanEntries (xs ++ FsF.dirCons nm true d ys) path c = Except.error ()) :=
  ⟨fun xs ys nm path c => scanEntries_skip_failing_file nm ys xs path c,
   fun xs ys d nm path c => scanEntries_error_of_denied_dir nm d ys xs path c⟩

/-- C8 counterexample: a root containing a permission-denied subdirectory
followed by a classifiable one-shot.  The claim predicts the denied branch
is treated as empty and the scan returns the accumulated entry for
`kick.wav`; the code instead aborts the whole scan with the error.  (The
second conjunct shows the same scan without the denied branch would have
returned that entry.) -/
theorem scan_branch_failure_aborts_scan :
    scanDirectory "root" false
        (FsF.dirCons "sub" true FsF.nil (FsF.fileCons "kick.wav" (some true) FsF.nil))
        "" 0 = Except.error () ∧
    scanDirectory "root" false (FsF.fileCons "kick.wav" (some true) FsF.nil) "" 0 =
      Except.ok ([⟨"kick.wav", "root/kick.wav"⟩], 1) :=
  ⟨rfl, rfl⟩

/-! ## The IndexedDB sample store

`samples` is keyed by `id` with a `by-directory` index on `directoryId`;
`directories` is keyed by `id`.  Both stores are modelled as lists of
records; `put` is insert-or-replace by key, matching IndexedDB `put` with
an in-line key path. -/

structure SampleMetadata where
  id : String
  name : String
  filePath : String
  directoryId : String
  directoryPath : String
  duration : ℚ
  channels : ℕ
  sampleRate : ℕ
  rmsLevel : ℝ
  createdAt : ℕ

structure DirectoryMetadata where
  id : String
  name : String
  path : String
  lastAccessed : ℕ
deriving Repr, DecidableEq

structure DBState where
  samples : List SampleMetadata
  directories : List DirectoryMetadata

/-- `index("by-directory").getAll(directoryId)` / `getSamples`. -/
def getAllByDirectory (db : List SampleMetadata) (directoryId : String) :
    List SampleMetadata :=
  db.filter (fun s => s.directoryId = directoryId)

/-- `store.put(sample)` on the `samples` store (keyPath `id`):
replace the record with the same key, else insert. -/
def putSample (db : List SampleMetadata) (s : SampleMetadata) : List SampleMetadata :=
  if db.any (fun t => t.id = s.id) then
    db.map (fun t => if t.id = s.id then s else t)
  else db ++ [s]

/-- `audioDetails`: each field may be `undefined`. -/
structure AudioDetails where
  duration : Option ℚ
  channels : Option ℕ
  sampleRate : Option ℕ
deriving Repr, DecidableEq

/-- `filePath.split("/").slice(0, -1).join("/")`. -/
def dirPathOf (filePath : String) : String :=
  String.intercalate "/" ((filePath.splitOn "/").dropLast)

/-- The record `upsertSample` builds: preserve `id`/`createdAt`/`rmsLevel`
of an existing record for the same `(directoryId, filePath)`, overwrite
`duration`/`channels`/`sampleRate` only with supplied (non-`undefined`)
values.  `freshId` stands for `crypto.randomUUID()` and `now` for
`Date.now()`, passed explicitly. -/
def upsertRecord (db : List SampleMetadata) (fileName filePath directoryId : String)
    (audioDetails : AudioDetails) (freshId : String) (now : ℕ) : SampleMetadata :=
  let existingSample :=
    (getAllByDirectory db directoryId).find? (fun s => s.filePath = filePath)
  { id := (existingSample.map (fun s => s.id)).getD freshId
    name := fileName
    filePath := filePath
    directoryId := directoryId
    directoryPath := dirPathOf filePath
    duration := audioDetails.duration.getD ((existingSample.map (fun s => s.duration)).getD 0)
    channels := audioDetails.channels.getD ((existingSample.map (fun s => s.channels)).getD 0)
    sampleRate :=
      audioDetails.sampleRate.getD ((existingSample.map (fun s => s.sampleRate)).getD 0)
    rmsLevel := (existingSample.map (fun s => s.rmsLevel)).getD 0
    createdAt := (existingSample.map (fun s => s.createdAt)).getD now }

/-- `StorageService.upsertSample`. -/
def upsertSample (db : List SampleMetadata) (fileName filePath directoryId : String)
    (audioDetails : AudioDetails) (freshId : String) (now : ℕ) : List SampleMetadata :=
  putSample db (upsertRecord db fileName filePath directoryId audioDetails freshId now)

/-- Has this record the `(directoryId, filePath)` pair? -/
def samePathIn (directoryId filePath : String) (s : SampleMetadata) : Bool :=
  decide (s.directoryId = directoryId) && decide (s.filePath = filePath)

/-! ### `removeDirectory` as a transaction script -/

inductive TxOp where
  | deleteSample (id : String)
  | deleteDirectory (id : String)
deriving Repr, DecidableEq

structure Transaction where
  stores : List String
  mode : String
  ops : List TxOp
deriving Repr, DecidableEq

/-- The single read-write transaction `removeDirectory` opens over the
`samples` and `directories` stores: delete each sample returned by
`getSamples(id)`, then delete the directory record. -/
def removeDirectoryTx (db : DBState) (id : String) : Transaction :=
  { stores := ["samples", "directories"]
    mode := "readwrite"
    ops := (getAllByDirectory db.samples id).map (fun s => TxOp.deleteSample s.id) ++
      [TxOp.deleteDirectory id] }

def applyOp (db : DBState) : TxOp → DBState
  | .deleteSample sid => { db with samples := db.samples.filter (fun s => s.id ≠ sid) }
  | .deleteDirectory did =>
    { db with directories := db.directories.filter (fun d => d.id ≠ did) }

def applyTx (db : DBState) (tx : Transaction) : DBState := tx.ops.foldl applyOp db

/-- `StorageService.removeDirectory` (the IndexedDB part; the in-memory
handle/permission maps are not part of the database state). -/
def removeDirectory (db : DBState) (id : String) : DBState :=
  applyTx db (removeDirectoryTx db id)

lemma applyOps_deleteSamples (ids : List String) :
    ∀ (db : DBState),
      (ids.map TxOp.deleteSample).foldl applyOp db =
        { db with samples := db.samples.filter (fun s => decide (s.id ∉ ids)) } := by
  induction ids with
  | nil => intro db; simp
  | cons i rest ih =>
    intro db
    simp only [List.map_cons, List.foldl_cons]
    rw [ih]
    simp only [applyOp, List.filter_filter]
    congr 1
    apply List.filter_congr
    intro x _
    simp only [List.mem_cons, not_or, Bool.decide_and, decide_not]
    rw [Bool.and_comm]

lemma filter_not_mem_ids (dbs : List SampleMetadata) (did : String)
    (h : (dbs.map (fun s => s.id)).Nodup) :
    dbs.filter (fun s => decide (s.id ∉ (getAllByDirectory dbs did).map (fun s => s.id))) =
      dbs.filter (fun s => decide ¬(s.directoryId = did)) := by
  apply List.filter_congr
  intro x hx
  simp only [decide_eq_decide]
  unfold getAllByDirectory
  constructor
  · intro hnot hdir
    exact hnot (List.mem_map.mpr ⟨x, List.mem_filter.mpr ⟨hx, by simpa using hdir⟩, rfl⟩)
  · intro hdir hmem
    rcases List.mem_map.mp hmem with ⟨t, htmem, htid⟩
    rcases List.mem_filter.mp htmem with ⟨htdbs, htdir⟩
    have : t = x := List.inj_on_of_nodup_map h htdbs hx htid
    exact hdir (by simpa [this] using htdir)

/-- C7: with unique sample keys (an IndexedDB store invariant),
`removeDirectory id` removes exactly the samples whose `directoryId` is
`id` (all of them, and no sample of any other directory), deletes the
directory record, and does it all in one read-write transaction spanning
the `samples` and `directories` stores. -/
theorem removeDirectory_cascades (db : DBState) (id : String)
    (h : (db.samples.map (fun s => s.id)).Nodup) :
    (removeDirectory db id).samples =
        db.samples.filter (fun s => decide ¬(s.directoryId = id)) ∧
    (removeDirectory db id).directories =
        db.directories.filter (fun d => d.id ≠ id) ∧
    (removeDirectoryTx db id).stores = ["samples", "directories"] ∧
    (removeDirectoryTx db id).mode = "readwrite" := by
  have hmain : removeDirectory db id =
      { samples := db.samples.filter (fun s => decide ¬(s.directoryId = id)),
        directories := db.directories.filter (fun d => d.id ≠ id) } := by
    unfold removeDirectory applyTx removeDirectoryTx
    dsimp only
    rw [List.foldl_append]
    rw [show (getAllByDirectory db.samples id).map (fun s => TxOp.deleteSample s.id) =
        ((getAllByDirectory db.samples id).map (fun s => s.id)).map TxOp.deleteSample from
      (List.map_map _ _ _).symm]
    rw [applyOps_deleteSamples]
    simp only [List.foldl_cons, List.foldl_nil, applyOp]
    rw [filter_not_mem_ids db.samples id h]
  exact ⟨by rw [hmain], by rw [hmain], rfl, rfl⟩

def demoSample1 : SampleMetadata :=
  ⟨"s1", "kick.wav", "d1/kick.wav", "d1", "d1", 1, 1, 44100, 0, 10⟩

def demoSample2 : SampleMetadata :=
  ⟨"s2", "snare.wav", "d2/snare.wav", "d2", "d2", 1, 1, 44100, 0, 11⟩

def demoDB : DBState :=
  ⟨[demoSample1, demoSample2], [⟨"d1", "d1", "d1", 0⟩, ⟨"d2", "d2", "d2", 0⟩]⟩

/-- C7 witness: removing directory `d1` from a two-directory store. -/
theorem removeDirectory_cascades_witness :
    (removeDirectory demoDB "d1").samples =
        demoDB.samples.filter (fun s => decide ¬(s.directoryId = "d1")) ∧
    (removeDirectory demoDB "d1").directories =
        demoDB.directories.filter (fun d => d.id ≠ "d1") ∧
    (removeDirectoryTx demoDB "d1").stores = ["samples", "directories"] ∧
    (removeDirectoryTx demoDB "d1").mode = "readwrite" :=
  removeDirectory_cascades demoDB "d1" (by decide)

lemma find_pair_none (db : List SampleMetadata) (did fp : String)
    (hno : ∀ s ∈ db, samePathIn did fp s = false) :
    (getAllByDirectory db did).find? (fun s => s.filePath = fp) = none := by
  rw [List.find?_eq_none]
  intro s hs
  rcases List.mem_filter.mp hs with ⟨hmem, hdir⟩
  have hfalse := hno s hmem
  simp only [samePathIn, Bool.and_eq_false_iff, decide_eq_false_iff_not] at hfalse
  rcases hfalse with h | h
  · exact absurd (by simpa using hdir) h
  · simpa using h

lemma find_pair_in_extended (db : List SampleMetadata) (r : SampleMetadata) (did fp : String)
    (hno : ∀ s ∈ db, samePathIn did fp s = false)
    (hrd : r.directoryId = did) (hrp : r.filePath = fp) :
    (getAllByDirectory (db ++ [r]) did).find? (fun s => s.filePath = fp) = some r := by
  unfold getAllByDirectory
  rw [List.filter_append, List.find?_append]
  have h1 : (getAllByDirectory db did).find? (fun s => s.filePath = fp) = none :=
    find_pair_none db did fp hno
  unfold getAllByDirectory at h1
  rw [h1]
  simp [hrd, hrp]

lemma putSample_replace (db : List SampleMetadata) (r1 r2 : SampleMetadata)
    (hid : r2.id = r1.id) (hdb : ∀ s ∈ db, s.id ≠ r1.id) :
    putSample (db ++ [r1]) r2 = db ++ [r2] := by
  unfold putSample
  rw [if_pos]
  · rw [List.map_append]
    congr 1
    · have hpt : ∀ t ∈ db, (if t.id = r2.id then r2 else t) = t := by
        intro t ht
        rw [if_neg]
        exact fun h => hdb t ht (h.trans hid)
      rw [List.map_congr_left hpt]; exact List.map_id' db
    · simp [hid]
  · simp [List.any_eq_true]
    exact Or.inr hid.symm


/-- C6: (1) upserting the same `(directoryId, filePath, file)` twice into
a store with no prior record for that pair (and no id collision) leaves
exactly one record for the pair, keeping the first call's `id` and
`createdAt`; (2) an upsert over an existing record keeps its `id` and
`createdAt` and overwrites `duration`/`channels`/`sampleRate` only with
supplied (non-`undefined`) `audioDetails` values, keeping the stored value
otherwise. -/
theorem upsertSample_semantics :
    (∀ (db : List SampleMetadata) (fileName filePath directoryId : String)
        (ad : AudioDetails) (id1 : String) (t1 : ℕ) (id2 : String) (t2 : ℕ),
      (∀ s ∈ db, samePathIn directoryId filePath s = false) →
      (∀ s ∈ db, s.id ≠ id1) →
      ((upsertSample (upsertSample db fileName filePath directoryId ad id1 t1)
          fileName filePath directoryId ad id2 t2).filter
          (samePathIn directoryId filePath)).length = 1 ∧
      ∃ r, r ∈ upsertSample (upsertSample db fileName filePath directoryId ad id1 t1)
            fileName filePath directoryId ad id2 t2 ∧
        samePathIn directoryId filePath r = true ∧ r.id = id1 ∧ r.createdAt = t1) ∧
    (∀ (db : List SampleMetadata) (fileName filePath directoryId : String)
        (ad : AudioDetails) (freshId : String) (now : ℕ) (e : SampleMetadata),
      (getAllByDirectory db directoryId).find? (fun s => s.filePath = filePath) = some e →
      (upsertRecord db fileName filePath directoryId ad freshId now).id = e.id ∧
      (upsertRecord db fileName filePath directoryId ad freshId now).createdAt = e.createdAt ∧
      (upsertRecord db fileName filePath directoryId ad freshId now).duration =
        ad.duration.getD e.duration ∧
      (upsertRecord db fileName filePath directoryId ad freshId now).channels =
        ad.channels.getD e.channels ∧
      (upsertRecord db fileName filePath directoryId ad freshId now).sampleRate =
        ad.sampleRate.getD e.sampleRate) := by
  constructor
  · intro db fn fp did ad id1 t1 id2 t2 hno hid1
    have hfind1 : (getAllByDirectory db did).find? (fun s => s.filePath = fp) = none :=
      find_pair_none db did fp hno
    obtain ⟨r1, hr1def⟩ : ∃ r, upsertRecord db fn fp did ad id1 t1 = r := ⟨_, rfl⟩
    have hr1id : r1.id = id1 := by rw [← hr1def]; simp [upsertRecord, hfind1]
    have hr1created : r1.createdAt = t1 := by rw [← hr1def]; simp [upsertRecord, hfind1]
    have hr1dir : r1.directoryId = did := by rw [← hr1def]; rfl
    have hr1path : r1.filePath = fp := by rw [← hr1def]; rfl
    have hany : db.any (fun t => t.id = r1.id) = false := by
      rw [List.any_eq_false]
      intro t ht
      rw [hr1id]
      simp [hid1 t ht]
    have hdb1 : upsertSample db fn fp did ad id1 t1 = db ++ [r1] := by
      unfold upsertSample
      rw [hr1def]
      simp [putSample, hany]
    have hfind2 := find_pair_in_extended db r1 did fp hno hr1dir hr1path
    obtain ⟨r2, hr2def⟩ : ∃ r, upsertRecord (db ++ [r1]) fn fp did ad id2 t2 = r := ⟨_, rfl⟩
    have hr2id : r2.id = id1 := by
      rw [← hr2def]
      simp only [upsertRecord, hfind2, Option.map_some, Option.getD_some]
      exact hr1id
    have hr2created : r2.createdAt = t1 := by
      rw [← hr2def]
      simp only [upsertRecord, hfind2, Option.map_some, Option.getD_some]
      exact hr1created
    have hr2dir : r2.directoryId = did := by rw [← hr2def]; rfl
    have hr2path : r2.filePath = fp := by rw [← hr2def]; rfl
    have hdb2 : upsertSample (db ++ [r1]) fn fp did ad id2 t2 = db ++ [r2] := by
      unfold upsertSample
      rw [hr2def]
      exact putSample_replace db r1 r2 (by rw [hr2id, hr1id])
        (fun s hs => by rw [hr1id]; exact hid1 s hs)
    have hall : upsertSample (upsertSample db fn fp did ad id1 t1) fn fp did ad id2 t2 =
        db ++ [r2] := by rw [hdb1]; exact hdb2
    rw [hall]
    have hr2match : samePathIn did fp r2 = true := by
      simp [samePathIn, hr2dir, hr2path]
    constructor
    · rw [List.filter_append]
      rw [List.filter_eq_nil_iff.mpr (by intro s hs; simp [hno s hs])]
      simp [hr2match]
    · exact ⟨r2, by simp, hr2match, hr2id, hr2created⟩
  · intro db fn fp did ad freshId now e hfind
    refine ⟨?_, ?_, ?_, ?_, ?_⟩ <;> simp [upsertRecord, hfind]


def demoExisting : SampleMetadata :=
  ⟨"old", "kick.wav", "d/kick.wav", "dir1", "d", 3, 2, 48000, 0, 7⟩

/-- C6 witness: a double upsert into an empty store, and an upsert with
only `duration` supplied over an existing record. -/
theorem upsertSample_semantics_witness :
    (((upsertSample (upsertSample [] "kick.wav" "d/kick.wav" "dir1"
          ⟨some 1, some 2, some 44100⟩ "u1" 5)
        "kick.wav" "d/kick.wav" "dir1" ⟨some 1, some 2, some 44100⟩ "u2" 9).filter
        (samePathIn "dir1" "d/kick.wav")).length = 1 ∧
      ∃ r, r ∈ upsertSample (upsertSample [] "kick.wav" "d/kick.wav" "dir1"
            ⟨some 1, some 2, some 44100⟩ "u1" 5)
          "kick.wav" "d/kick.wav" "dir1" ⟨some 1, some 2, some 44100⟩ "u2" 9 ∧
        samePathIn "dir1" "d/kick.wav" r = true ∧ r.id = "u1" ∧ r.createdAt = 5) ∧
    ((upsertRecord [demoExisting] "kick.wav" "d/kick.wav" "dir1"
        ⟨some 1, none, none⟩ "u3" 9).id = demoExisting.id ∧
      (upsertRecord [demoExisting] "kick.wav" "d/kick.wav" "dir1"
        ⟨some 1, none, none⟩ "u3" 9).createdAt = demoExisting.createdAt ∧
      (upsertRecord [demoExisting] "kick.wav" "d/kick.wav" "dir1"
        ⟨some 1, none, none⟩ "u3" 9).duration =
          (some 1 : Option ℚ).getD demoExisting.duration ∧
      (upsertRecord [demoExisting] "kick.wav" "d/kick.wav" "dir1"
        ⟨some 1, none, none⟩ "u3" 9).channels =
          (none : Option ℕ).getD demoExisting.channels ∧
      (upsertRecord [demoExisting] "kick.wav" "d/kick.wav" "dir1"
        ⟨some 1, none, none⟩ "u3" 9).sampleRate =
          (none : Option ℕ).getD demoExisting.sampleRate) :=
  ⟨upsertSample_semantics.1 [] "kick.wav" "d/kick.wav" "dir1" ⟨some 1, some 2, some 44100⟩
      "u1" 5 "u2" 9 (by simp) (by simp),
    upsertSample_semantics.2 [demoExisting] "kick.wav" "d/kick.wav" "dir1"
      ⟨some 1, none, none⟩ "u3" 9 demoExisting (by rfl)⟩

/-! ## The export pipeline of `handleDownload` (`piano-keys.tsx`) -/

/-- The fixed note-name-to-semitone table of `getMidiNoteNumber`. -/
def noteMap : String → Option ℕ
  | "C" => some 0 | "C#" => some 1 | "D" => some 2 | "D#" => some 3
  | "E" => some 4 | "F" => some 5 | "F#" => some 6 | "G" => some 7
  | "G#" => some 8 | "A" => some 9 | "A#" => some 10 | "B" => some 11
  | _ => none

/-- `Number.parseInt(c, 10)` on the one-character octave slice. -/
def digitVal (c : Char) : Option ℕ :=
  if '0' ≤ c ∧ c ≤ '9' then some (c.toNat - '0'.toNat) else none

/-- `getMidiNoteNumber`: `noteMap[note.slice(0,-1)] + (parseInt(note.slice(-1)) + 2) * 12`.
The string slices are taken on the character list; a note name outside the
table (or a non-digit octave) yields `NaN` in JavaScript, embedded as
`none`. -/
def getMidiNoteNumber (note : String) : Option ℕ := do
  let m ← noteMap ⟨note.data.dropLast⟩
  let oct ← (note.data.getLast?).bind digitVal
  pure (m + (oct + 2) * 12)

/-- The per-sample edit parameters (`editParams[sampleId]`). -/
structure EditParams where
  startTime : ℚ
  endTime : ℚ
  gain : ℚ
  fadeIn : ℚ
  fadeOut : ℚ
  isNormalized : Bool
  isReversed : Bool
deriving Repr, DecidableEq

/-- One region object of patch.json (`fade.in`, `fade.out`,
`pitch.keycenter`, `sample.end` are written with Lean-legal field names). -/
structure Region where
  fadeIn : ℤ
  fadeOut : ℤ
  framecount : ℤ
  hikey : ℕ
  lokey : ℕ
  pan : ℤ
  pitchKeycenter : ℕ
  playmode : String
  reverse : Bool
  sample : String
  sampleEnd : ℤ
  transpose : ℤ
  tune : ℤ
deriving Repr, DecidableEq

/-- The region literal both branches of `handleDownload` build. -/
def mkRegion (midiNote : ℕ) (len : ℤ) (sampleName : String) : Region :=
  { fadeIn := 0, fadeOut := 0, framecount := len, hikey := midiNote,
    lokey := midiNote, pan := 0, pitchKeycenter := 60, playmode := "oneshot",
    reverse := false, sample := sampleName, sampleEnd := len,
    transpose := 0, tune := 0 }

/-- `Math.floor(params.startTime * sampleRate)`. -/
def startSampleOf (params : EditParams) (sr : ℕ) : ℤ := ⌊params.startTime * (sr : ℚ)⌋

/-- `Math.floor(params.endTime * sampleRate)`. -/
def endSampleOf (params : EditParams) (sr : ℕ) : ℤ := ⌊params.endTime * (sr : ℚ)⌋

/-- `outputData[i] = inputData[startSample + i]` for `i < length`
(the in-range trim; the UI keeps `[startTime, endTime]` inside the clip). -/
def trimChannel (input : List ℚ) (startSample len : ℕ) : List ℚ :=
  (input.drop startSample).take len

/-- `Math.max(...outputData.map(Math.abs))`, as a fold with 0 as base:
for the nonempty buffers of the success path the two agree, because every
`|x|` is nonnegative. -/
def maxAbs (l : List ℚ) : ℚ := (l.map (fun x => |x|)).foldl max 0

/-- The gain factor: `params.gain / max|x|` when normalising, else
`params.gain`. -/
def gainFactor (params : EditParams) (outputData : List ℚ) : ℚ :=
  if params.isNormalized then params.gain / maxAbs outputData else params.gain

def applyGain (params : EditParams) (l : List ℚ) : List ℚ :=
  l.map (fun x => x * gainFactor params l)

/-- `Math.floor(params.fadeIn * sampleRate)`. -/
def fadeInSamplesOf (params : EditParams) (sr : ℕ) : ℕ :=
  (⌊params.fadeIn * (sr : ℚ)⌋).toNat

/-- `Math.floor(params.fadeOut * sampleRate)`. -/
def fadeOutSamplesOf (params : EditParams) (sr : ℕ) : ℕ :=
  (⌊params.fadeOut * (sr : ℚ)⌋).toNat

/-- The fade-in loop: `for i < fadeInSamples, outputData[i] *= i / fadeInSamples`. -/
def applyFadeIn (l : List ℚ) (n : ℕ) : List ℚ :=
  l.mapIdx (fun i x => if i < n then x * ((i : ℚ) / (n : ℚ)) else x)

/-- The fade-out loop:
`for i < fadeOutSamples, outputData[length - 1 - i] *= 1 - i / fadeOutSamples`.
Writing `i = length - 1 - p` for the position `p`, the multiplied factor at
position `p` is `1 - (length - 1 - p) / n` whenever `length - 1 - p < n`
(JavaScript assignments to negative indices are ignored, which coincides
with the natural-subtraction guard). -/
def applyFadeOut (l : List ℚ) (n : ℕ) : List ℚ :=
  l.mapIdx (fun p x =>
    if l.length - 1 - p < n then x * (1 - ((l.length - 1 - p : ℕ) : ℚ) / (n : ℚ)) else x)

def applyReverse (params : EditParams) (l : List ℚ) : List ℚ :=
  if params.isReversed then l.reverse else l

/-- The whole per-channel processing of the edit-parameter branch:
trim, gain, fade in, fade out, reverse — in the source's order. -/
def processChannel (params : EditParams) (sr startSample len : ℕ)
    (input : List ℚ) : List ℚ :=
  applyReverse params
    (applyFadeOut
      (applyFadeIn (applyGain params (trimChannel input startSample len))
        (fadeInSamplesOf params sr))
      (fadeOutSamplesOf params sr))

/-- A source sample file: its raw bytes and its decode result. -/
structure SourceFile where
  bytes : List ℕ
  audio : Option AudioData
deriving Repr, DecidableEq

/-- A file placed into the preset archive. -/
structure ArchiveFile where
  name : String
  bytes : List ℕ
deriving Repr, DecidableEq

/-- The edit-parameter branch of `handleDownload` for one key: decode,
trim to `[startSample, endSample)`, process each channel, and build the
region with `framecount = sample.end = endSample - startSample`.
`none` models the `catch` paths (unknown note → `NaN` key, or
`createBuffer` throwing on a non-positive length). -/
def exportKeyWithParams (note sampleName : String) (audio : AudioData)
    (params : EditParams) : Option (Region × AudioData) :=
  match getMidiNoteNumber note with
  | none => none
  | some midiNote =>
    let sr := audio.sampleRate
    let startSample := startSampleOf params sr
    let len := endSampleOf params sr - startSample
    if len ≤ 0 then none
    else
      some (mkRegion midiNote len sampleName,
        ⟨sr, audio.channels.map (processChannel params sr startSample.toNat len.toNat)⟩)

/-- The no-edit-parameters branch of `handleDownload` for one key: the
original array buffer goes into the archive unmodified and the region uses
the decoded frame count. -/
def exportKeyNoParams (note sampleName : String) (file : SourceFile) :
    Option (Region × ArchiveFile) :=
  match getMidiNoteNumber note with
  | none => none
  | some midiNote =>
    match file.audio with
    | none => none
    | some audio =>
      some (mkRegion midiNote (audio.frames : ℤ) sampleName, ⟨sampleName, file.bytes⟩)

/-- C4 (code bug): with a 4-sample trailing window the "fade out" loop
multiplies the *final* sample by `1 - 0/4 = 1` and the first sample of
the window by `1/4`: the trailing ramp *rises* to full amplitude at the
final sample instead of falling to zero there.  The fade-in half behaves
as the spec says, rising from zero. -/
theorem applyFadeOut_at_failing_input :
    applyFadeOut [1, 1, 1, 1] 4 = [1/4, 1/2, 3/4, 1] ∧
    applyFadeIn [1, 1, 1, 1] 4 = [0, 1/4, 1/2, 3/4] := by decide

/-- C2: `getMidiNoteNumber "F2" = 53`; every region a successful export
emits (either branch) has `hikey = lokey =` the note's mapped MIDI number,
`playmode = "oneshot"`, `pitch.keycenter = 60` and zero
pan/transpose/tune/fade.in/fade.out; and in the no-edit-params branch the
archived file is byte-identical to the source file (with
`framecount = sample.end =` the decoded frame count). -/
theorem export_region_fields :
    getMidiNoteNumber "F2" = some 53 ∧
    (∀ (note sampleName : String) (file : SourceFile) (r : Region) (af : ArchiveFile),
      exportKeyNoParams note sampleName file = some (r, af) →
      ∃ m, getMidiNoteNumber note = some m ∧
        r.hikey = m ∧ r.lokey = m ∧ r.playmode = "oneshot" ∧ r.pitchKeycenter = 60 ∧
        r.pan = 0 ∧ r.transpose = 0 ∧ r.tune = 0 ∧ r.fadeIn = 0 ∧ r.fadeOut = 0 ∧
        (∃ a, file.audio = some a ∧ r.framecount = (a.frames : ℤ) ∧
          r.sampleEnd = r.framecount) ∧
        af.name = sampleName ∧ af.bytes = file.bytes) ∧
    (∀ (note sampleName : String) (audio : AudioData) (params : EditParams)
        (r : Region) (out : AudioData),
      exportKeyWithParams note sampleName audio params = some (r, out) →
      ∃ m, getMidiNoteNumber note = some m ∧
        r.hikey = m ∧ r.lokey = m ∧ r.playmode = "oneshot" ∧ r.pitchKeycenter = 60 ∧
        r.pan = 0 ∧ r.transpose = 0 ∧ r.tune = 0 ∧ r.fadeIn = 0 ∧ r.fadeOut = 0) := by
  refine ⟨by decide, ?_, ?_⟩
  · intro note sampleName file r af h
    unfold exportKeyNoParams at h
    cases hm : getMidiNoteNumber note with
    | none => rw [hm] at h; exact absurd h (by simp)
    | some m =>
      rw [hm] at h
      cases hf : file.audio with
      | none => rw [hf] at h; exact absurd h (by simp)
      | some a =>
        rw [hf] at h
        simp only [Option.some.injEq, Prod.mk.injEq] at h
        obtain ⟨hr, haf⟩ := h
        subst hr
        subst haf
        exact ⟨m, rfl, rfl, rfl, rfl, rfl, rfl, rfl, rfl, rfl, rfl,
          ⟨a, rfl, rfl, rfl⟩, rfl, rfl⟩
  · intro note sampleName audio params r out h
    unfold exportKeyWithParams at h
    cases hm : getMidiNoteNumber note with
    | none => rw [hm] at h; exact absurd h (by simp)
    | some m =>
      rw [hm] at h
      dsimp only at h
      split at h
      · exact absurd h (by simp)
      · simp only [Option.some.injEq, Prod.mk.injEq] at h
        obtain ⟨hr, _⟩ := h
        subst hr
        exact ⟨m, rfl, rfl, rfl, rfl, rfl, rfl, rfl, rfl, rfl, rfl⟩

def demoSourceFile : SourceFile := ⟨[1, 2, 3], some ⟨44100, [[0, 0]]⟩⟩

/-- C2 witness: the no-params branch on a concrete file mapped to F2. -/
theorem export_region_fields_witness :
    ∃ m, getMidiNoteNumber "F2" = some m ∧
      (mkRegion 53 2 "kick.wav").hikey = m ∧ (mkRegion 53 2 "kick.wav").lokey = m ∧
      (mkRegion 53 2 "kick.wav").playmode = "oneshot" ∧
      (mkRegion 53 2 "kick.wav").pitchKeycenter = 60 ∧
      (mkRegion 53 2 "kick.wav").pan = 0 ∧ (mkRegion 53 2 "kick.wav").transpose = 0 ∧
      (mkRegion 53 2 "kick.wav").tune = 0 ∧ (mkRegion 53 2 "kick.wav").fadeIn = 0 ∧
      (mkRegion 53 2 "kick.wav").fadeOut = 0 ∧
      (∃ a, demoSourceFile.audio = some a ∧
        (mkRegion 53 2 "kick.wav").framecount = (a.frames : ℤ) ∧
        (mkRegion 53 2 "kick.wav").sampleEnd = (mkRegion 53 2 "kick.wav").framecount) ∧
      (⟨"kick.wav", [1, 2, 3]⟩ : ArchiveFile).name = "kick.wav" ∧
      (⟨"kick.wav", [1, 2, 3]⟩ : ArchiveFile).bytes = demoSourceFile.bytes :=
  export_region_fields.2.1 "F2" "kick.wav" demoSourceFile (mkRegion 53 2 "kick.wav")
    ⟨"kick.wav", [1, 2, 3]⟩ rfl

/-- C5: a successful edit-params export has
`framecount = sample.end = floor(endTime * sampleRate) - floor(startTime * sampleRate)`. -/
theorem export_framecount (note sampleName : String) (audio : AudioData)
    (params : EditParams) (r : Region) (out : AudioData)
    (h : exportKeyWithParams note sampleName audio params = some (r, out)) :
    r.framecount =
      ⌊params.endTime * (audio.sampleRate : ℚ)⌋ -
        ⌊params.startTime * (audio.sampleRate : ℚ)⌋ ∧
    r.sampleEnd = r.framecount := by
  unfold exportKeyWithParams at h
  cases hm : getMidiNoteNumber note with
  | none => rw [hm] at h; exact absurd h (by simp)
  | some m =>
    rw [hm] at h
    dsimp only at h
    split at h
    · exact absurd h (by simp)
    · simp only [Option.some.injEq, Prod.mk.injEq] at h
      obtain ⟨hr, _⟩ := h
      subst hr
      exact ⟨rfl, rfl⟩

def demoTrimBuffer : AudioData := ⟨44100, [List.replicate 44100 0]⟩

def demoTrimParams : EditParams := ⟨1/4, 3/4, 1, 0, 0, false, false⟩

/-- C5 witness: a 1-second 44100 Hz mono buffer trimmed to
`[0.25, 0.75)` exports with `framecount = 22050`. -/
theorem export_framecount_witness :
    ((mkRegion 53 22050 "kick.wav").framecount =
      ⌊demoTrimParams.endTime * (demoTrimBuffer.sampleRate : ℚ)⌋ -
        ⌊demoTrimParams.startTime * (demoTrimBuffer.sampleRate : ℚ)⌋ ∧
      (mkRegion 53 22050 "kick.wav").sampleEnd =
        (mkRegion 53 22050 "kick.wav").framecount) ∧
    (mkRegion 53 22050 "kick.wav").framecount = 22050 :=
  ⟨export_framecount "F2" "kick.wav" demoTrimBuffer demoTrimParams
      (mkRegion 53 22050 "kick.wav")
      ⟨44100, [processChannel demoTrimParams 44100 11025 22050 (List.replicate 44100 0)]⟩
      rfl,
    rfl⟩

/-! ## The WAV re-encoder (`audioBufferToWav`) -/

def AudioData.numChannels (a : AudioData) : ℕ := a.channels.length

/-- Two little-endian bytes of a 16-bit write (`DataView.setInt16 (little
endian)` stores the value modulo 2^16 in two's complement; reading the two
bytes back gives the representative in `[0, 2^16)`). -/
def le16 (n : ℤ) : List ℕ := [(n % 65536).toNat % 256, (n % 65536).toNat / 256]

/-- Four little-endian bytes of a 32-bit write. -/
def le32 (n : ℕ) : List ℕ := [n % 256, n / 256 % 256, n / 65536 % 256, n / 16777216 % 256]

/-- `Math.max(-1, Math.min(1, sample))`. -/
def clamp1 (x : ℚ) : ℚ := max (-1) (min 1 x)

/-- `sample < 0 ? sample * 0x8000 : sample * 0x7fff`. -/
def scale16 (x : ℚ) : ℚ := if x < 0 then x * 32768 else x * 32767

/-- Truncation toward zero (`ToIntegerOrInfinity` applied by `setInt16`). -/
def ratTrunc (q : ℚ) : ℤ := if q < 0 then -⌊-q⌋ else ⌊q⌋

/-- The 16-bit quantisation of one sample in `audioBufferToWav`. -/
def quantize16 (x : ℚ) : ℤ := ratTrunc (scale16 (clamp1 x))

/-- `channels[c][pos]`. -/
def sampleAt (b : AudioData) (c pos : ℕ) : ℚ := (b.channels.getD c []).getD pos 0

def sampleBytes (b : AudioData) (pos c : ℕ) : List ℕ := le16 (quantize16 (sampleAt b c pos))

/-- One interleaved frame: the quantised sample of each channel in order. -/
def frameBytes (b : AudioData) (pos : ℕ) : List ℕ :=
  (List.range b.numChannels).flatMap (sampleBytes b pos)

/-- The frames the `while (pos < buffer.length)` loop actually encodes.
The header helpers `setUint16`/`setUint32` advance the *shared* variable
`pos` to 44 while writing the header, and the data loop then reuses `pos`
as the frame index (reading `channels[i][pos]`, writing at `44 + offset`
with `offset` starting at 0): the frames written are `44 .. frames - 1`,
interleaved. -/
def wavWrittenFrames (b : AudioData) : List ℕ :=
  (List.range' 44 (b.frames - 44)).flatMap (frameBytes b)

/-- The data chunk the code produces: the written frames followed by the
untouched bytes of the zero-initialised `ArrayBuffer(44 + length)` — the
last `min 44 frames * numChannels * 2` data bytes stay zero (the whole
chunk, for buffers of at most 44 frames). -/
def wavDataBytes (b : AudioData) : List ℕ :=
  wavWrittenFrames b ++
    List.replicate
      (b.frames * (2 * b.numChannels) - (b.frames - 44) * (2 * b.numChannels)) 0

/-- The 44-byte header written by the `setUint16`/`setUint32` calls:
"RIFF", file length − 8, "WAVE", "fmt ", 16, PCM tag 1, channel count,
sample rate, byte rate, block align, 16 bits/sample, "data", data length. -/
def wavHeader (b : AudioData) : List ℕ :=
  le32 0x46464952 ++ le32 (36 + b.frames * b.numChannels * 2) ++ le32 0x45564157 ++
    le32 0x20746d66 ++ le32 16 ++ le16 1 ++ le16 (b.numChannels : ℤ) ++
    le32 b.sampleRate ++ le32 (b.sampleRate * 2 * b.numChannels) ++
    le16 ((b.numChannels : ℤ) * 2) ++ le16 16 ++ le32 0x61746164 ++
    le32 (b.frames * b.numChannels * 2)

/-- `audioBufferToWav`. -/
def audioBufferToWav (b : AudioData) : List ℕ := wavHeader b ++ wavDataBytes b

lemma le16_length (n : ℤ) : (le16 n).length = 2 := rfl

lemma sampleBytes_length (b : AudioData) (pos c : ℕ) : (sampleBytes b pos c).length = 2 := rfl

lemma frameBytes_length (b : AudioData) (pos : ℕ) :
    (frameBytes b pos).length = 2 * b.numChannels := by
  unfold frameBytes
  rw [List.length_flatMap]
  rw [List.map_congr_left (fun i _ => show (List.length ∘ sampleBytes b pos) i = 2 from rfl)]
  simp [List.map_const', mul_comm]

lemma wavWrittenFrames_length (b : AudioData) :
    (wavWrittenFrames b).length = (b.frames - 44) * (2 * b.numChannels) := by
  unfold wavWrittenFrames
  rw [List.length_flatMap]
  rw [List.map_congr_left (fun i _ =>
    show (List.length ∘ frameBytes b) i = 2 * b.numChannels from frameBytes_length b i)]
  simp [List.map_const', mul_comm]

lemma wavDataBytes_length (b : AudioData) :
    (wavDataBytes b).length = b.frames * (2 * b.numChannels) := by
  unfold wavDataBytes
  rw [List.length_append, List.length_replicate, wavWrittenFrames_length]
  have h : (b.frames - 44) * (2 * b.numChannels) ≤ b.frames * (2 * b.numChannels) :=
    Nat.mul_le_mul_right _ (Nat.sub_le _ _)
  omega

lemma flatMap_chunk {α : Type} (f : ℕ → List α) (m : ℕ)
    (hm : ∀ i, (f i).length = m) :
    ∀ (k n s : ℕ), k < n →
      ((List.range' s n).flatMap f).drop (m * k) =
        f (s + k) ++ (List.range' (s + k + 1) (n - k - 1)).flatMap f := by
  intro k
  induction k with
  | zero =>
    intro n s hk
    cases n with
    | zero => omega
    | succ n' =>
      rw [List.range'_succ, List.flatMap_cons]
      simp
  | succ k ih =>
    intro n s hk
    cases n with
    | zero => omega
    | succ n' =>
      rw [List.range'_succ, List.flatMap_cons]
      rw [show m * (k + 1) = m + m * k from by ring]
      rw [← List.drop_drop]
      have hdrop : List.drop m (f s ++ (List.range' (s + 1) n').flatMap f) =
          (List.range' (s + 1) n').flatMap f := by
        rw [show m = (f s).length from (hm s).symm, List.drop_left]
      rw [hdrop, ih n' (s + 1) (by omega)]
      have h1 : s + 1 + k = s + (k + 1) := by omega
      have h3 : n' - k - 1 = n' + 1 - (k + 1) - 1 := by omega
      rw [h1, h3]


/-- Extracting two data bytes inside the written region yields the
quantised sample of frame `44 + j` — the 44-frame shift of the source's
`pos` reuse. -/
lemma wavDataBytes_chunk (b : AudioData) (j c : ℕ) (hj : j < b.frames - 44)
    (hc : c < b.numChannels) :
    ((wavDataBytes b).drop (2 * b.numChannels * j + 2 * c)).take 2 =
      sampleBytes b (44 + j) c := by
  have hfb : ∀ i, (frameBytes b i).length = 2 * b.numChannels := frameBytes_length b
  have hsb : ∀ i, (sampleBytes b (44 + j) i).length = 2 :=
    fun i => sampleBytes_length b (44 + j) i
  unfold wavDataBytes
  rw [List.drop_append_eq_append_drop, List.take_append_eq_append_take]
  have hinside : 2 * b.numChannels * j + 2 * c + 2 ≤
      (b.frames - 44) * (2 * b.numChannels) := by
    calc 2 * b.numChannels * j + 2 * c + 2 ≤
        2 * b.numChannels * j + 2 * b.numChannels := by omega
    _ = 2 * b.numChannels * (j + 1) := by ring
    _ ≤ 2 * b.numChannels * (b.frames - 44) := Nat.mul_le_mul_left _ hj
    _ = (b.frames - 44) * (2 * b.numChannels) := by ring
  have hdroplen : (List.drop (2 * b.numChannels * j + 2 * c) (wavWrittenFrames b)).length =
      (b.frames - 44) * (2 * b.numChannels) - (2 * b.numChannels * j + 2 * c) := by
    rw [List.length_drop, wavWrittenFrames_length]
  rw [show 2 - (List.drop (2 * b.numChannels * j + 2 * c) (wavWrittenFrames b)).length = 0
    from by rw [hdroplen]; omega]
  rw [List.take_zero, List.append_nil]
  unfold wavWrittenFrames
  rw [← List.drop_drop,
    flatMap_chunk (frameBytes b) (2 * b.numChannels) hfb j (b.frames - 44) 44 hj]
  rw [List.drop_append_eq_append_drop, List.take_append_eq_append_take]
  have hlen : (List.drop (2 * c) (frameBytes b (44 + j))).length =
      2 * b.numChannels - 2 * c := by
    rw [List.length_drop, hfb]
  rw [show 2 - (List.drop (2 * c) (frameBytes b (44 + j))).length = 0 from
    by rw [hlen]; omega]
  rw [List.take_zero, List.append_nil]
  have hframe : frameBytes b (44 + j) =
      (List.range' 0 b.numChannels).flatMap (sampleBytes b (44 + j)) := by
    unfold frameBytes
    rw [List.range_eq_range']
  rw [hframe, flatMap_chunk (sampleBytes b (44 + j)) 2 hsb c b.numChannels 0 hc]
  rw [Nat.zero_add, List.take_append_eq_append_take]
  have htake : List.take 2 (sampleBytes b (44 + j) c) = sampleBytes b (44 + j) c := by
    rw [show (2 : ℕ) = (sampleBytes b (44 + j) c).length from rfl]
    exact List.take_length _
  rw [htake, show 2 - (sampleBytes b (44 + j) c).length = 0 from rfl, List.take_zero,
    List.append_nil]

/-- Past the written region the data chunk is the untouched zeros of the
`ArrayBuffer`. -/
lemma wavDataBytes_zero_tail (b : AudioData) :
    (wavDataBytes b).drop ((b.frames - 44) * (2 * b.numChannels)) =
      List.replicate
        (b.frames * (2 * b.numChannels) - (b.frames - 44) * (2 * b.numChannels)) 0 := by
  unfold wavDataBytes
  rw [show (b.frames - 44) * (2 * b.numChannels) = (wavWrittenFrames b).length from
    (wavWrittenFrames_length b).symm]
  exact List.drop_left _ _

set_option maxHeartbeats 1000000 in
/-- What `audioBufferToWav` actually produces: the 44-byte RIFF/WAVE
header is as intended (PCM tag 1, source channel count and sample rate,
16 bits per sample, correct chunk lengths), but the data chunk starts at
quantised frame `44` (the `pos` reuse) and ends in untouched zero bytes. -/
lemma audioBufferToWav_layout (b : AudioData) :
    ((audioBufferToWav b).length = 44 + b.frames * (2 * b.numChannels) ∧
      (wavHeader b).length = 44) ∧
    ((audioBufferToWav b).take 4 = [0x52, 0x49, 0x46, 0x46] ∧
      ((audioBufferToWav b).drop 8).take 4 = [0x57, 0x41, 0x56, 0x45] ∧
      ((audioBufferToWav b).drop 20).take 2 = [1, 0] ∧
      ((audioBufferToWav b).drop 22).take 2 = le16 (b.numChannels : ℤ) ∧
      ((audioBufferToWav b).drop 24).take 4 = le32 b.sampleRate ∧
      ((audioBufferToWav b).drop 34).take 2 = [16, 0] ∧
      ((audioBufferToWav b).drop 36).take 4 = [0x64, 0x61, 0x74, 0x61] ∧
      ((audioBufferToWav b).drop 40).take 4 = le32 (b.frames * b.numChannels * 2)) ∧
    (∀ j, j < b.frames - 44 → ∀ c, c < b.numChannels →
      ((audioBufferToWav b).drop (44 + 2 * (j * b.numChannels + c))).take 2 =
        le16 (quantize16 (sampleAt b c (44 + j)))) ∧
    ((audioBufferToWav b).drop (44 + (b.frames - 44) * (2 * b.numChannels)) =
      List.replicate
        (b.frames * (2 * b.numChannels) - (b.frames - 44) * (2 * b.numChannels)) 0) := by
  have hheader : (wavHeader b).length = 44 := rfl
  refine ⟨⟨?_, rfl⟩, ⟨rfl, rfl, rfl, rfl, rfl, rfl, rfl, rfl⟩, ?_, ?_⟩
  · unfold audioBufferToWav
    rw [List.length_append, wavDataBytes_length]
    rfl
  · intro j hj c hc
    unfold audioBufferToWav
    rw [show 44 + 2 * (j * b.numChannels + c) =
        (wavHeader b).length + (2 * b.numChannels * j + 2 * c) from by rw [hheader]; ring]
    rw [List.drop_append_eq_append_drop]
    rw [show (wavHeader b).length + (2 * b.numChannels * j + 2 * c) -
        (wavHeader b).length = 2 * b.numChannels * j + 2 * c from by omega]
    rw [List.drop_eq_nil_of_le (by omega), List.nil_append]
    exact wavDataBytes_chunk b j c hj hc
  · unfold audioBufferToWav
    rw [show 44 + (b.frames - 44) * (2 * b.numChannels) =
        (wavHeader b).length + (b.frames - 44) * (2 * b.numChannels) from by rw [hheader]]
    rw [List.drop_append_eq_append_drop]
    rw [show (wavHeader b).length + (b.frames - 44) * (2 * b.numChannels) -
        (wavHeader b).length = (b.frames - 44) * (2 * b.numChannels) from by omega]
    rw [List.drop_eq_nil_of_le (by omega), List.nil_append]
    exact wavDataBytes_zero_tail b

/-- A 2-frame mono buffer, both samples at full scale. -/
def demoTinyWavBuffer : AudioData := ⟨3, [[1, 1]]⟩

/-- A 45-frame mono buffer that is silent except frame 44 = 1/2. -/
def demoShiftWavBuffer : AudioData := ⟨100, [List.replicate 44 0 ++ [1/2]]⟩

/-- C3 (code bug): the data loop reuses `pos`, already advanced to 44 by
the header writes, as its frame index.  A 2-frame buffer of full-scale
samples gets an all-zero data chunk even though quantised frame 0 is
`[255, 127]`; and on a 45-frame buffer the first two data bytes are the
quantisation `[255, 63]` of frame 44, not of frame 0 (which is silent) —
so frame `k` of the output is not quantised frame `k`. -/
theorem audioBufferToWav_data_misaligned :
    ((audioBufferToWav demoTinyWavBuffer).drop 44 = [0, 0, 0, 0] ∧
      le16 (quantize16 (sampleAt demoTinyWavBuffer 0 0)) = [255, 127] ∧
      ((audioBufferToWav demoTinyWavBuffer).drop 44).take 2 ≠
        le16 (quantize16 (sampleAt demoTinyWavBuffer 0 0))) ∧
    (((audioBufferToWav demoShiftWavBuffer).drop 44).take 2 =
        le16 (quantize16 (sampleAt demoShiftWavBuffer 0 44)) ∧
      le16 (quantize16 (sampleAt demoShiftWavBuffer 0 44)) = [255, 63] ∧
      ((audioBufferToWav demoShiftWavBuffer).drop 44).take 2 ≠
        le16 (quantize16 (sampleAt demoShiftWavBuffer 0 0))) := by decide

/-! ## The waveform / RMS analysis (`analyzeSample`, `sample-list.tsx`) -/

/-- `Math.floor(channelData.length / 100)`. -/
def blockSizeOf (ch : List ℚ) : ℕ := ch.length / 100

/-- Bucket `i` of the peak envelope: the inner
`for j < blockSize, peak = Math.max(peak, Math.abs(channelData[start+j]))`
loop with `peak` starting at 0. -/
def peakAt (ch : List ℚ) (bs i : ℕ) : ℚ :=
  (((ch.drop (bs * i)).take bs).map (fun x => |x|)).foldl max 0

/-- The 100-bucket peak envelope `analyzeSample` pushes. -/
def peaksOf (ch : List ℚ) : List ℚ :=
  (List.range 100).map (peakAt ch (blockSizeOf ch))

/-- `rmsSum / channelData.length` with `rmsSum` the loop's sum of squares. -/
def meanSquareOf (ch : List ℚ) : ℚ :=
  (ch.map (fun x => x * x)).sum / (ch.length : ℚ)

/-- `20 * Math.log10(Math.sqrt(rmsSum / length))`: the dB level persisted
as `rmsLevel` (symbolic over ℝ; the only non-executable definition). -/
noncomputable def rmsDbOf (ch : List ℚ) : ℝ :=
  20 * Real.logb 10 (Real.sqrt ((meanSquareOf ch : ℚ) : ℝ))

/-- The argument of `storage.updateSample` (all fields of the TS
`Partial` record may be absent). -/
structure SampleUpdates where
  duration : Option ℚ
  channels : Option ℕ
  sampleRate : Option ℕ
  rmsLevel : Option ℝ

/-- `{ ...sample, ...updates }`. -/
def applyUpdates (s : SampleMetadata) (u : SampleUpdates) : SampleMetadata :=
  { s with
    duration := u.duration.getD s.duration
    channels := u.channels.getD s.channels
    sampleRate := u.sampleRate.getD s.sampleRate
    rmsLevel := u.rmsLevel.getD s.rmsLevel }

/-- `StorageService.updateSample`: get by id (`none` = the `throw`),
then `put` the merged record. -/
def updateSample (db : List SampleMetadata) (id : String) (u : SampleUpdates) :
    Option (List SampleMetadata) :=
  match db.find? (fun s => s.id = id) with
  | none => none
  | some s => some (putSample db (applyUpdates s u))

/-- The update record `analyzeSample` passes to `updateSample`. -/
noncomputable def analyzeUpdates (a : AudioData) : SampleUpdates :=
  { duration := some a.duration
    channels := some a.channels.length
    sampleRate := some a.sampleRate
    rmsLevel := some (rmsDbOf a.channel0) }

lemma le_foldl_max (l : List ℚ) : ∀ (a : ℚ), a ≤ l.foldl max a := by
  induction l with
  | nil => intro a; simp
  | cons x t ih =>
    intro a
    calc a ≤ max a x := le_max_left a x
    _ ≤ t.foldl max (max a x) := ih (max a x)

lemma mem_le_foldl_max (l : List ℚ) : ∀ (a x : ℚ), x ∈ l → x ≤ l.foldl max a := by
  induction l with
  | nil => intro a x hx; exact absurd hx (List.not_mem_nil x)
  | cons y t ih =>
    intro a x hx
    rcases List.mem_cons.mp hx with rfl | hx
    · calc x ≤ max a x := le_max_right a x
      _ ≤ t.foldl max (max a x) := le_foldl_max t (max a x)
    · exact ih (max a y) x hx

lemma foldl_max_le (l : List ℚ) : ∀ (a b : ℚ), a ≤ b → (∀ x ∈ l, x ≤ b) →
    l.foldl max a ≤ b := by
  induction l with
  | nil => intro a b hab _; simpa using hab
  | cons y t ih =>
    intro a b hab hall
    simp only [List.foldl_cons]
    exact ih (max a y) b (max_le hab (hall y (List.mem_cons_self y t)))
      fun x hx => hall x (List.mem_cons_of_mem y hx)

lemma foldl_max_mem (l : List ℚ) : ∀ (a : ℚ), l.foldl max a = a ∨ l.foldl max a ∈ l := by
  induction l with
  | nil => intro a; exact Or.inl rfl
  | cons y t ih =>
    intro a
    simp only [List.foldl_cons]
    rcases ih (max a y) with h | h
    · rcases max_choice a y with hm | hm
      · exact Or.inl (h.trans hm)
      · exact Or.inr (List.mem_cons.mpr (Or.inl (h.trans hm)))
    · exact Or.inr (List.mem_cons_of_mem y h)

lemma list_sq_sum_eq (ch : List ℚ) :
    (ch.map (fun x => x * x)).sum = ∑ i ∈ Finset.range ch.length, (ch.getD i 0) ^ 2 := by
  induction ch with
  | nil => simp
  | cons x t ih =>
    simp only [List.map_cons, List.sum_cons, List.length_cons]
    rw [Finset.sum_range_succ', ih]
    simp [sq, add_comm]


/-- C9: `analyzeSample` always pushes exactly 100 peak buckets; bucket
`i` is the maximum absolute amplitude over the `i`-th
`floor(length/100)`-sample slice of the first channel (an upper bound of
the slice that is attained unless the slice is empty, in which case the
bucket is 0); every bucket lies in `[0, 1]` when the decoded amplitudes
do; a buffer shorter than 100 samples gives all-zero buckets; and the RMS
level passed to `updateSample` — which merges it into the stored record —
is `20 * log10` of the root mean square over all samples of the first
channel. -/
theorem analyzeSample_spec (a : AudioData) (ch : List ℚ) (hch : ch = a.channel0) :
    ((peaksOf ch).length = 100 ∧
      (∀ i, i < 100 → (peaksOf ch).getD i 0 = peakAt ch (blockSizeOf ch) i) ∧
      (∀ i, ∀ x ∈ (ch.drop (blockSizeOf ch * i)).take (blockSizeOf ch),
        |x| ≤ peakAt ch (blockSizeOf ch) i) ∧
      (∀ i, 0 ≤ peakAt ch (blockSizeOf ch) i) ∧
      ((∀ x ∈ ch, |x| ≤ 1) → ∀ i, peakAt ch (blockSizeOf ch) i ≤ 1) ∧
      (∀ i, peakAt ch (blockSizeOf ch) i = 0 ∨
        ∃ x ∈ (ch.drop (blockSizeOf ch * i)).take (blockSizeOf ch),
          peakAt ch (blockSizeOf ch) i = |x|) ∧
      (ch.length < 100 → ∀ i, peakAt ch (blockSizeOf ch) i = 0)) ∧
    ((analyzeUpdates a).rmsLevel = some (20 * Real.logb 10 (Real.sqrt
      ((((∑ i ∈ Finset.range ch.length, (ch.getD i 0) ^ 2) / (ch.length : ℚ) : ℚ)) : ℝ)))) ∧
    (∀ (db : List SampleMetadata) (id : String) (s : SampleMetadata),
      db.find? (fun t => t.id = id) = some s →
      updateSample db id (analyzeUpdates a) =
        some (putSample db (applyUpdates s (analyzeUpdates a))) ∧
      (applyUpdates s (analyzeUpdates a)).rmsLevel = rmsDbOf a.channel0) := by
  subst hch
  refine ⟨⟨by simp [peaksOf], ?_, ?_, ?_, ?_, ?_, ?_⟩, ?_, ?_⟩
  · intro i hi
    simp [peaksOf, List.getD, hi]
  · intro i x hx
    exact mem_le_foldl_max _ 0 |x| (List.mem_map.mpr ⟨x, hx, rfl⟩)
  · intro i
    exact le_foldl_max _ 0
  · intro hb i
    refine foldl_max_le _ 0 1 zero_le_one ?_
    intro y hy
    rcases List.mem_map.mp hy with ⟨x, hx, rfl⟩
    exact hb x (List.mem_of_mem_drop (List.mem_of_mem_take hx))
  · intro i
    rcases foldl_max_mem ((((a.channel0).drop (blockSizeOf a.channel0 * i)).take
        (blockSizeOf a.channel0)).map (fun x => |x|)) 0 with h | h
    · exact Or.inl h
    · rcases List.mem_map.mp h with ⟨x, hx, hxe⟩
      exact Or.inr ⟨x, hx, hxe.symm⟩
  · intro hlen i
    simp [peakAt, blockSizeOf, Nat.div_eq_of_lt hlen]
  · show some (rmsDbOf a.channel0) = _
    rw [rmsDbOf, meanSquareOf, list_sq_sum_eq]
  · intro db id s hfind
    constructor
    · unfold updateSample
      rw [hfind]
    · simp [applyUpdates, analyzeUpdates]

def demoAnalyzeCh : List ℚ := [1/2, 1]

def demoAnalyzeBuf : AudioData := ⟨100, [demoAnalyzeCh]⟩

/-- C9 witness: a two-sample 100 Hz buffer. -/
theorem analyzeSample_spec_witness :
    ((peaksOf demoAnalyzeCh).length = 100 ∧
      (∀ i, i < 100 → (peaksOf demoAnalyzeCh).getD i 0 =
        peakAt demoAnalyzeCh (blockSizeOf demoAnalyzeCh) i) ∧
      (∀ i, ∀ x ∈ (demoAnalyzeCh.drop (blockSizeOf demoAnalyzeCh * i)).take
          (blockSizeOf demoAnalyzeCh),
        |x| ≤ peakAt demoAnalyzeCh (blockSizeOf demoAnalyzeCh) i) ∧
      (∀ i, 0 ≤ peakAt demoAnalyzeCh (blockSizeOf demoAnalyzeCh) i) ∧
      ((∀ x ∈ demoAnalyzeCh, |x| ≤ 1) → ∀ i,
        peakAt demoAnalyzeCh (blockSizeOf demoAnalyzeCh) i ≤ 1) ∧
      (∀ i, peakAt demoAnalyzeCh (blockSizeOf demoAnalyzeCh) i = 0 ∨
        ∃ x ∈ (demoAnalyzeCh.drop (blockSizeOf demoAnalyzeCh * i)).take
          (blockSizeOf demoAnalyzeCh),
          peakAt demoAnalyzeCh (blockSizeOf demoAnalyzeCh) i = |x|) ∧
      (demoAnalyzeCh.length < 100 → ∀ i,
        peakAt demoAnalyzeCh (blockSizeOf demoAnalyzeCh) i = 0)) ∧
    ((analyzeUpdates demoAnalyzeBuf).rmsLevel = some (20 * Real.logb 10 (Real.sqrt
      ((((∑ i ∈ Finset.range demoAnalyzeCh.length, (demoAnalyzeCh.getD i 0) ^ 2) /
        (demoAnalyzeCh.length : ℚ) : ℚ)) : ℝ)))) ∧
    (∀ (db : List SampleMetadata) (id : String) (s : SampleMetadata),
      db.find? (fun t => t.id = id) = some s →
      updateSample db id (analyzeUpdates demoAnalyzeBuf) =
        some (putSample db (applyUpdates s (analyzeUpdates demoAnalyzeBuf))) ∧
      (applyUpdates s (analyzeUpdates demoAnalyzeBuf)).rmsLevel =
        rmsDbOf demoAnalyzeBuf.channel0) :=
  analyzeSample_spec demoAnalyzeBuf demoAnalyzeCh rfl

end DrumBuilder
